import Mathlib

/-!
Formal model of the `visitercontrol` repository (sliding-window visit
counter).  The two Go components of `queueInt64.go` are embedded as
executable Lean definitions:

* `circleQueueInt64` — the fixed-capacity ring buffer of expiration
  timestamps (one "Window Buffer" per caller key);
* `Visitercontrol` — the access controller owning the pool of buffers,
  the key→slot index, the free-slot set, the expiry sweep and the gc
  compaction.

Go `int64` values (expiration timestamps, durations) are modelled as `Int`;
indices and sizes as `Nat`.  A Go runtime panic (slice index out of range)
is modelled by returning `none`.  Go map iteration order is not specified;
the model fixes insertion order for the key index and for the free set,
which realises one admissible schedule.
-/

set_option autoImplicit false

/-- Ring buffer of int64 timestamps (`circleQueueInt64` in the source).
`maxSize` is one more than the usable capacity; `slice` always has length
`maxSize`; `head`/`tail` are cursors into `slice`. -/
structure circleQueueInt64 where
  maxSize : Nat
  slice : List Int
  head : Nat
  tail : Nat
deriving DecidableEq, Repr

/-- `newCircleQueueInt64(size)`: `maxSize = size + 1`, zeroed backing slice,
both cursors at 0. -/
def newCircleQueueInt64 (size : Nat) : circleQueueInt64 :=
  { maxSize := size + 1
    slice := List.replicate (size + 1) 0
    head := 0
    tail := 0 }

namespace circleQueueInt64

/-- `IsFull`: `(tail+1) % maxSize == head`. -/
def IsFull (q : circleQueueInt64) : Bool :=
  (q.tail + 1) % q.maxSize == q.head

/-- `IsEmpty`: `tail == head`. -/
def IsEmpty (q : circleQueueInt64) : Bool :=
  q.tail == q.head

/-- `UsedSize`: `(tail + maxSize - head) % maxSize`. -/
def UsedSize (q : circleQueueInt64) : Nat :=
  (q.tail + q.maxSize - q.head) % q.maxSize

/-- `UnUsedSize`: `maxSize - 1 - UsedSize`. -/
def UnUsedSize (q : circleQueueInt64) : Nat :=
  q.maxSize - 1 - q.UsedSize

/-- `Len`: the usable capacity `maxSize - 1`. -/
def Len (q : circleQueueInt64) : Nat :=
  q.maxSize - 1

/-- `Push(val)`: fails (returns `none`, the "queue is full" error) when the
buffer is full, otherwise writes `val` at `tail` and advances `tail`. -/
def Push (q : circleQueueInt64) (val : Int) : Option circleQueueInt64 :=
  if q.IsFull then none
  else some { q with slice := q.slice.set q.tail val, tail := (q.tail + 1) % q.maxSize }

/-- `Pop()`: fails (returns `none`, the "queue is empty" error) when the
buffer is empty, otherwise returns the element at `head` and advances
`head`. -/
def Pop (q : circleQueueInt64) : Option (Int × circleQueueInt64) :=
  if q.IsEmpty then none
  else some (q.slice.getD q.head 0, { q with head := (q.head + 1) % q.maxSize })

/-- `Pop()` with its error ignored, exactly as `DeleteExpired` calls it:
on an empty buffer nothing happens. -/
def popDrop (q : circleQueueInt64) : circleQueueInt64 :=
  if q.IsEmpty then q
  else { q with head := (q.head + 1) % q.maxSize }

/-- The loop body of `DeleteExpired`: `for i := 0; i < size; i++` checking
`now > slice[temphead]` (that is, `slice[temphead] < now`), popping on
success and returning at the first non-expired entry. -/
def delLoop (now : Int) : Nat → Nat → circleQueueInt64 → circleQueueInt64
  | 0, _, q => q
  | fuel + 1, temphead, q =>
    if q.slice.getD temphead 0 < now then
      delLoop now fuel ((temphead + 1) % q.maxSize) q.popDrop
    else q

/-- `DeleteExpired()`: early return when `UsedSize = 0`, otherwise run the
pop loop for `UsedSize` iterations starting at `head`.  The wall-clock
`time.Now().UnixNano()` of the source is passed in as `now`. -/
def DeleteExpired (now : Int) (q : circleQueueInt64) : circleQueueInt64 :=
  if q.UsedSize = 0 then q else delLoop now q.UsedSize q.head q

/-- Modelled from the spec: `Size()` is called on the buffer by
`deleteExpiredOnce` (line 210) but is not defined in the provided source;
the spec's reclamation step reads "if the buffer becomes empty" and the
buffer's occupancy query is `UsedSize`, so `Size` is modelled as
`UsedSize`. -/
def Size (q : circleQueueInt64) : Nat :=
  q.UsedSize

/-- Advance `head` unconditionally (the state change of a successful
`Pop`, used to read the logical contents of the ring). -/
def popAdv (q : circleQueueInt64) : circleQueueInt64 :=
  { q with head := (q.head + 1) % q.maxSize }

/-- Read `fuel` logical entries starting at `head`. -/
def toListAux : Nat → circleQueueInt64 → List Int
  | 0, _ => []
  | fuel + 1, q => q.slice.getD q.head 0 :: toListAux fuel q.popAdv

/-- The logical contents of the ring buffer, oldest first. -/
def toList (q : circleQueueInt64) : List Int :=
  toListAux q.UsedSize q

end circleQueueInt64

/-- Structural well-formedness of a ring buffer of capacity `n`: the shape
every buffer produced by `newCircleQueueInt64 n` has and every operation
preserves. -/
abbrev validQ (n : Nat) (q : circleQueueInt64) : Prop :=
  q.maxSize = n + 1 ∧ q.slice.length = q.maxSize ∧ q.head < q.maxSize ∧ q.tail < q.maxSize

/-- Resolve `a % m` when `a < 2*m`: either `a` itself or `a - m`. -/
theorem mod_two_blocks (a m : Nat) (_hm : 0 < m) (h : a < 2 * m) :
    (a < m ∧ a % m = a) ∨ (m ≤ a ∧ a % m = a - m) := by
  rcases Nat.lt_or_ge a m with h1 | h1
  · exact Or.inl ⟨h1, Nat.mod_eq_of_lt h1⟩
  · refine Or.inr ⟨h1, ?_⟩
    rw [Nat.mod_eq_sub_mod h1, Nat.mod_eq_of_lt (by omega)]

namespace circleQueueInt64

theorem validQ_new (n : Nat) : validQ n (newCircleQueueInt64 n) := by
  refine ⟨rfl, ?_, ?_, ?_⟩ <;> simp [newCircleQueueInt64]

theorem UsedSize_le {n : Nat} {q : circleQueueInt64} (h : validQ n q) : q.UsedSize ≤ n := by
  obtain ⟨h1, h2, h3, h4⟩ := h
  have hlt : (q.tail + q.maxSize - q.head) % q.maxSize < q.maxSize :=
    Nat.mod_lt _ (by omega)
  simp only [UsedSize]
  omega

theorem IsEmpty_iff {n : Nat} {q : circleQueueInt64} (h : validQ n q) :
    q.IsEmpty = true ↔ q.UsedSize = 0 := by
  obtain ⟨h1, h2, h3, h4⟩ := h
  have hm : 0 < q.maxSize := by omega
  simp only [IsEmpty, UsedSize, beq_iff_eq]
  rcases mod_two_blocks (q.tail + q.maxSize - q.head) q.maxSize hm (by omega) with
    ⟨ha, hb⟩ | ⟨ha, hb⟩ <;> rw [hb] <;> omega

theorem IsFull_iff {n : Nat} {q : circleQueueInt64} (h : validQ n q) :
    q.IsFull = true ↔ q.UsedSize = n := by
  obtain ⟨h1, h2, h3, h4⟩ := h
  have hm : 0 < q.maxSize := by omega
  simp only [IsFull, UsedSize, beq_iff_eq]
  rcases mod_two_blocks (q.tail + 1) q.maxSize hm (by omega) with ⟨ha, hb⟩ | ⟨ha, hb⟩ <;>
    rcases mod_two_blocks (q.tail + q.maxSize - q.head) q.maxSize hm (by omega) with
      ⟨hc, hd⟩ | ⟨hc, hd⟩ <;> rw [hb, hd] <;> omega

theorem Push_eq_none_iff {n : Nat} {q : circleQueueInt64} (h : validQ n q) (v : Int) :
    q.Push v = none ↔ q.UsedSize = n := by
  rw [← IsFull_iff h]
  unfold Push
  split <;> simp_all

/-- Advancing the tail cursor of a non-full ring grows the occupancy count
by one. -/
theorem ring_succ_mod (M h t : Nat) (hm : 0 < M) (hh : h < M) (ht : t < M)
    (hne : (t + 1) % M ≠ h) :
    ((t + 1) % M + M - h) % M = (t + M - h) % M + 1 := by
  rcases mod_two_blocks (t + 1) M hm (by omega) with ⟨ha, hb⟩ | ⟨ha, hb⟩ <;> rw [hb] at hne ⊢
  · rcases mod_two_blocks (t + 1 + M - h) M hm (by omega) with ⟨hc, hd⟩ | ⟨hc, hd⟩ <;>
      rw [hd] <;>
      rcases mod_two_blocks (t + M - h) M hm (by omega) with ⟨he, hg⟩ | ⟨he, hg⟩ <;>
      rw [hg] <;> omega
  · rcases mod_two_blocks (t + 1 - M + M - h) M hm (by omega) with ⟨hc, hd⟩ | ⟨hc, hd⟩ <;>
      rw [hd] <;>
      rcases mod_two_blocks (t + M - h) M hm (by omega) with ⟨he, hg⟩ | ⟨he, hg⟩ <;>
      rw [hg] <;> omega

/-- Advancing the head cursor of a non-empty ring shrinks the occupancy
count by one. -/
theorem ring_pred_mod (M h t : Nat) (hm : 0 < M) (hh : h < M) (ht : t < M) (hne : t ≠ h) :
    (t + M - h) % M = (t + M - (h + 1) % M) % M + 1 := by
  rcases mod_two_blocks (h + 1) M hm (by omega) with ⟨ha, hb⟩ | ⟨ha, hb⟩ <;> rw [hb]
  · rcases mod_two_blocks (t + M - (h + 1)) M hm (by omega) with ⟨hc, hd⟩ | ⟨hc, hd⟩ <;>
      rw [hd] <;>
      rcases mod_two_blocks (t + M - h) M hm (by omega) with ⟨he, hg⟩ | ⟨he, hg⟩ <;>
      rw [hg] <;> omega
  · rcases mod_two_blocks (t + M - (h + 1 - M)) M hm (by omega) with ⟨hc, hd⟩ | ⟨hc, hd⟩ <;>
      rw [hd] <;>
      rcases mod_two_blocks (t + M - h) M hm (by omega) with ⟨he, hg⟩ | ⟨he, hg⟩ <;>
      rw [hg] <;> omega

theorem Push_UsedSize {n : Nat} {q q2 : circleQueueInt64} {v : Int} (h : validQ n q)
    (hp : q.Push v = some q2) : q2.UsedSize = q.UsedSize + 1 := by
  obtain ⟨h1, h2, h3, h4⟩ := h
  have hm : 0 < q.maxSize := by omega
  simp only [Push] at hp
  split at hp
  · exact Option.noConfusion hp
  · rename_i hf
    simp only [IsFull, beq_iff_eq] at hf
    injection hp with h5
    subst h5
    show ((q.tail + 1) % q.maxSize + q.maxSize - q.head) % q.maxSize
      = (q.tail + q.maxSize - q.head) % q.maxSize + 1
    exact ring_succ_mod q.maxSize q.head q.tail hm h3 h4 hf

theorem Pop_UsedSize {n : Nat} {q q2 : circleQueueInt64} {v : Int} (h : validQ n q)
    (hp : q.Pop = some (v, q2)) : q.UsedSize = q2.UsedSize + 1 := by
  obtain ⟨h1, h2, h3, h4⟩ := h
  have hm : 0 < q.maxSize := by omega
  simp only [Pop] at hp
  split at hp
  · exact Option.noConfusion hp
  · rename_i hf
    simp only [IsEmpty, beq_iff_eq] at hf
    injection hp with h5
    have h6 : q2 = { q with head := (q.head + 1) % q.maxSize } := by
      have h7 := congrArg Prod.snd h5
      simpa using h7.symm
    subst h6
    show (q.tail + q.maxSize - q.head) % q.maxSize
      = (q.tail + q.maxSize - (q.head + 1) % q.maxSize) % q.maxSize + 1
    exact ring_pred_mod q.maxSize q.head q.tail hm h3 h4 hf

theorem validQ_Push {n : Nat} {q q2 : circleQueueInt64} {v : Int} (h : validQ n q)
    (hp : q.Push v = some q2) : validQ n q2 := by
  obtain ⟨h1, h2, h3, h4⟩ := h
  simp only [Push] at hp
  split at hp
  · exact Option.noConfusion hp
  · injection hp with h5
    subst h5
    exact ⟨h1, by simpa using h2, h3, Nat.mod_lt _ (by omega)⟩

theorem validQ_popAdv {n : Nat} {q : circleQueueInt64} (h : validQ n q) : validQ n q.popAdv := by
  obtain ⟨h1, h2, h3, h4⟩ := h
  exact ⟨h1, h2, Nat.mod_lt _ (by omega), h4⟩

theorem validQ_popDrop {n : Nat} {q : circleQueueInt64} (h : validQ n q) : validQ n q.popDrop := by
  unfold popDrop
  split
  · exact h
  · obtain ⟨h1, h2, h3, h4⟩ := h
    exact ⟨h1, h2, Nat.mod_lt _ (by omega), h4⟩

theorem validQ_Pop {n : Nat} {q q2 : circleQueueInt64} {v : Int} (h : validQ n q)
    (hp : q.Pop = some (v, q2)) : validQ n q2 := by
  simp only [Pop] at hp
  split at hp
  · exact Option.noConfusion hp
  · injection hp with h5
    have h6 : q2 = { q with head := (q.head + 1) % q.maxSize } := by
      have h7 := congrArg Prod.snd h5
      simpa using h7.symm
    subst h6
    obtain ⟨h1, h2, h3, h4⟩ := h
    exact ⟨h1, h2, Nat.mod_lt _ (by omega), h4⟩

theorem validQ_delLoop {n : Nat} (now : Int) :
    ∀ (fuel temphead : Nat) (q : circleQueueInt64), validQ n q →
      validQ n (delLoop now fuel temphead q) := by
  intro fuel
  induction fuel with
  | zero => intro _ q h; exact h
  | succ k ih =>
    intro temphead q h
    simp only [delLoop]
    split
    · exact ih _ _ (validQ_popDrop h)
    · exact h

theorem validQ_DeleteExpired {n : Nat} {q : circleQueueInt64} (now : Int) (h : validQ n q) :
    validQ n (DeleteExpired now q) := by
  unfold DeleteExpired
  split
  · exact h
  · exact validQ_delLoop now _ _ q h

/-- States of a capacity-`n` ring buffer reachable from construction through
`Push`, `Pop` and `DeleteExpired`. -/
inductive ReachableQ : Nat → circleQueueInt64 → Prop
  | init (n : Nat) : ReachableQ n (newCircleQueueInt64 n)
  | push {n : Nat} {q q2 : circleQueueInt64} {v : Int} :
      ReachableQ n q → q.Push v = some q2 → ReachableQ n q2
  | pop {n : Nat} {q q2 : circleQueueInt64} {v : Int} :
      ReachableQ n q → q.Pop = some (v, q2) → ReachableQ n q2
  | sweep {n : Nat} {q : circleQueueInt64} (now : Int) :
      ReachableQ n q → ReachableQ n (DeleteExpired now q)

theorem ReachableQ.valid {n : Nat} {q : circleQueueInt64} (h : ReachableQ n q) : validQ n q := by
  induction h with
  | init => exact validQ_new _
  | push _ hp ih => exact validQ_Push ih hp
  | pop _ hp ih => exact validQ_Pop ih hp
  | sweep now _ ih => exact validQ_DeleteExpired now ih

theorem toList_cons_decomp {n : Nat} {q : circleQueueInt64} {k : Nat} (h : validQ n q)
    (hU : q.UsedSize = k + 1) :
    q.toList = q.slice.getD q.head 0 :: q.popAdv.toList ∧ q.popAdv.UsedSize = k := by
  have hM : 0 < q.maxSize := by obtain ⟨h1, _, _, _⟩ := h; omega
  have hne : q.tail ≠ q.head := by
    intro he
    have hb : q.IsEmpty = true := by simp [IsEmpty, he]
    rw [IsEmpty_iff h] at hb
    omega
  have hs : q.popAdv.UsedSize = k := by
    have hr : q.UsedSize = q.popAdv.UsedSize + 1 :=
      ring_pred_mod q.maxSize q.head q.tail hM h.2.2.1 h.2.2.2 hne
    omega
  refine ⟨?_, hs⟩
  unfold toList
  rw [hU, hs]
  rfl

theorem delLoop_toList {n : Nat} (now : Int) :
    ∀ (fuel : Nat) (q : circleQueueInt64), validQ n q → q.UsedSize = fuel →
      (delLoop now fuel q.head q).toList = q.toList.dropWhile (fun e => decide (e < now)) := by
  intro fuel
  induction fuel with
  | zero =>
    intro q h hU
    have hnil : q.toList = [] := by unfold toList; rw [hU]; rfl
    simp [delLoop, hnil]
  | succ k ih =>
    intro q h hU
    obtain ⟨hl, hs⟩ := toList_cons_decomp h hU
    have hne : q.IsEmpty = false := by
      by_contra hb
      rw [Bool.not_eq_false] at hb
      rw [IsEmpty_iff h] at hb
      omega
    have hpd : q.popDrop = q.popAdv := by simp [popDrop, popAdv, hne]
    simp only [delLoop]
    rw [hpd]
    by_cases hc : q.slice.getD q.head 0 < now
    · rw [if_pos hc, hl, List.dropWhile_cons]
      simp only [hc, decide_True, if_true]
      exact ih q.popAdv (validQ_popAdv h) hs
    · rw [if_neg hc, hl, List.dropWhile_cons]
      rw [if_neg (by simpa using hc)]

theorem DeleteExpired_toList {n : Nat} (now : Int) {q : circleQueueInt64} (h : validQ n q) :
    (DeleteExpired now q).toList = q.toList.dropWhile (fun e => decide (e < now)) := by
  unfold DeleteExpired
  split
  · rename_i h0
    have hnil : q.toList = [] := by unfold toList; rw [h0]; rfl
    rw [hnil]
    rfl
  · exact delLoop_toList now q.UsedSize q h rfl

end circleQueueInt64

open circleQueueInt64 in
/-- Claim C4 counterexample: the source's `DeleteExpired` keeps an event
whose expiration instant equals `now` (the loop condition is the strict
`now > slice[temphead]`), while the claim states that an event with
expiration `≤ now` — equality included — is removed.  Concretely: a buffer
holding the single timestamp 5, swept at `now = 5`, still holds it, although
dropping every entry `≤ 5` would empty the buffer. -/
theorem C4_counterexample :
    (((newCircleQueueInt64 2).Push 5).getD (newCircleQueueInt64 2)).toList = [5] ∧
      (DeleteExpired 5 (((newCircleQueueInt64 2).Push 5).getD (newCircleQueueInt64 2))).toList
        = [5] ∧
      (((newCircleQueueInt64 2).Push 5).getD (newCircleQueueInt64 2)).toList.dropWhile
        (fun e => decide (e ≤ (5 : Int))) = [] := by
  refine ⟨?_, ?_, ?_⟩ <;> decide

open circleQueueInt64 in
/-- Claim C4 (amended): `DeleteExpired now` removes the oldest events while
their expiration is strictly below `now` and stops at the first event whose
expiration is `≥ now`, leaving it and all later events untouched; the
resulting contents are exactly `dropWhile (· < now)` of the previous
contents. -/
theorem C4_DeleteExpired_strict_dropWhile (n : Nat) (now : Int) (q : circleQueueInt64)
    (h : validQ n q) :
    (DeleteExpired now q).toList = q.toList.dropWhile (fun e => decide (e < now)) :=
  DeleteExpired_toList now h

open circleQueueInt64 in
/-- Witness for C4 at a concrete buffer: capacity 2 holding [5], swept at 7. -/
theorem C4_witness :
    (DeleteExpired 7 (((newCircleQueueInt64 2).Push 5).getD (newCircleQueueInt64 2))).toList
      = ((((newCircleQueueInt64 2).Push 5).getD (newCircleQueueInt64 2)).toList).dropWhile
        (fun e => decide (e < 7)) :=
  C4_DeleteExpired_strict_dropWhile 2 7
    (((newCircleQueueInt64 2).Push 5).getD (newCircleQueueInt64 2)) (by decide)

open circleQueueInt64 in
/-- Claim C5: a buffer constructed with capacity `n` admits exactly `n`
events: `Push` fails (the `Full` error) precisely when `UsedSize = n`,
succeeds precisely when `UsedSize < n`, and the occupancy never exceeds
`n`. -/
theorem C5_push_full_iff (n : Nat) (q : circleQueueInt64) (v : Int) (h : validQ n q) :
    (q.Push v = none ↔ q.UsedSize = n) ∧
      ((q.Push v).isSome ↔ q.UsedSize < n) ∧ q.UsedSize ≤ n := by
  have h1 := Push_eq_none_iff h v
  have h2 := UsedSize_le h
  refine ⟨h1, ?_, h2⟩
  rcases hq : q.Push v with _ | q2
  · rw [hq] at h1
    have hn : q.UsedSize = n := h1.mp rfl
    simp only [Option.isSome_none]
    constructor
    · intro hfalse; exact absurd hfalse (by simp)
    · intro hlt; omega
  · rw [hq] at h1
    have h3 : q.UsedSize ≠ n := fun he => Option.noConfusion (h1.mpr he)
    simp only [Option.isSome_some]
    constructor
    · intro _; omega
    · intro _; trivial

open circleQueueInt64 in
/-- Witness for C5 at a full capacity-1 buffer holding one event. -/
theorem C5_witness :
    ((((newCircleQueueInt64 1).Push 5).getD (newCircleQueueInt64 1)).Push 9 = none ↔
        (((newCircleQueueInt64 1).Push 5).getD (newCircleQueueInt64 1)).UsedSize = 1) ∧
      (((((newCircleQueueInt64 1).Push 5).getD (newCircleQueueInt64 1)).Push 9).isSome ↔
        (((newCircleQueueInt64 1).Push 5).getD (newCircleQueueInt64 1)).UsedSize < 1) ∧
      (((newCircleQueueInt64 1).Push 5).getD (newCircleQueueInt64 1)).UsedSize ≤ 1 :=
  C5_push_full_iff 1 (((newCircleQueueInt64 1).Push 5).getD (newCircleQueueInt64 1)) 9 (by decide)

open circleQueueInt64 in
/-- Claim C10: every ring-buffer state reachable through `Push`, `Pop` and
`DeleteExpired` from `newCircleQueueInt64 n` keeps `UsedSize` between 0 and
`n`, both cursors below `n + 1`, has `IsEmpty`/`IsFull` deciding
`UsedSize = 0` / `UsedSize = n`, and successful `Push`/`Pop` change
`UsedSize` by exactly one. -/
theorem C10_ring_invariants (n : Nat) (q : circleQueueInt64) (h : ReachableQ n q) :
    q.UsedSize ≤ n ∧ q.head < n + 1 ∧ q.tail < n + 1 ∧
      (q.IsEmpty = true ↔ q.UsedSize = 0) ∧
      (q.IsFull = true ↔ q.UsedSize = n) ∧
      (∀ (v : Int) (q2 : circleQueueInt64), q.Push v = some q2 →
        q2.UsedSize = q.UsedSize + 1) ∧
      (∀ (v : Int) (q2 : circleQueueInt64), q.Pop = some (v, q2) →
        q.UsedSize = q2.UsedSize + 1) := by
  have hv := h.valid
  obtain ⟨h1, h2, h3, h4⟩ := hv
  exact ⟨UsedSize_le ⟨h1, h2, h3, h4⟩, h1 ▸ h3, h1 ▸ h4,
    IsEmpty_iff ⟨h1, h2, h3, h4⟩, IsFull_iff ⟨h1, h2, h3, h4⟩,
    fun v q2 hp => Push_UsedSize ⟨h1, h2, h3, h4⟩ hp,
    fun v q2 hp => Pop_UsedSize ⟨h1, h2, h3, h4⟩ hp⟩

open circleQueueInt64 in
/-- Witness for C10 at the freshly constructed capacity-2 buffer. -/
theorem C10_witness : (newCircleQueueInt64 2).UsedSize ≤ 2 :=
  (C10_ring_invariants 2 (newCircleQueueInt64 2) (ReachableQ.init 2)).1

/-! ## Access controller -/

/-- `sync.Map.Load` on the key→slot index `indexes`, modelled as an
association list (one entry per key). -/
def lookupKey (key : Int) : List (Int × Nat) → Option Nat
  | [] => none
  | (k, v) :: rest => if k = key then some v else lookupKey key rest

/-- `sync.Map.Store`: replace the binding if the key is present, otherwise
append it. -/
def storeKey (key : Int) (v : Nat) : List (Int × Nat) → List (Int × Nat)
  | [] => [(key, v)]
  | (k, w) :: rest => if k = key then (key, v) :: rest else (k, w) :: storeKey key v rest

/-- `sync.Map.Delete`. -/
def deleteKey (key : Int) (l : List (Int × Nat)) : List (Int × Nat) :=
  l.filter fun kv => !(kv.1 == key)

/-- `hashset.SetInt.Add` of the external hashset dependency: a set, so
adding a member again is a no-op.  Iteration order of a Go map is
unspecified; the model uses insertion order (one admissible order). -/
def setAdd (i : Nat) (s : List Nat) : List Nat :=
  if i ∈ s then s else s ++ [i]

/-- The controller state (`Visitercontrol` in the source).  `indexes` is the
key→slot index, `visitorRecords` the pool of ring buffers, and
`notUsedVisitorRecordsIndex` the free-slot set. -/
structure Visitercontrol where
  defaultExpiration : Int
  cleanupInterval : Int
  maxVisitsNum : Nat
  maximumNumberOfOnlineUsers : Nat
  indexes : List (Int × Nat)
  visitorRecords : List circleQueueInt64
  notUsedVisitorRecordsIndex : List Nat
deriving DecidableEq, Repr

/-- `new(...)`: panics (`none`) when `cleanupInterval > defaultExpiration`,
otherwise builds the pool of `maximumNumberOfOnlineUsers` empty buffers of
capacity `maxVisitsNum` and marks every index free. -/
def new (defaultExpiration cleanupInterval : Int) (maxVisitsNum maximumNumberOfOnlineUsers : Nat) :
    Option Visitercontrol :=
  if defaultExpiration < cleanupInterval then none
  else some
    { defaultExpiration := defaultExpiration
      cleanupInterval := cleanupInterval
      maxVisitsNum := maxVisitsNum
      maximumNumberOfOnlineUsers := maximumNumberOfOnlineUsers
      indexes := []
      visitorRecords := List.replicate maximumNumberOfOnlineUsers (newCircleQueueInt64 maxVisitsNum)
      notUsedVisitorRecordsIndex := List.range maximumNumberOfOnlineUsers }

/-- `add(key)`: result is `some (err == nil, newState)`; `none` models the
Go runtime panic on an out-of-range slot index.  For a known key the `Push`
error is returned; on both allocation paths (free slot / append) the `Push`
error is ignored by the source and `nil` is returned.  The free-slot pick
(`for ... range Items` + `break`) takes the set's first element in the
model's order. -/
def add (st : Visitercontrol) (key : Int) (now : Int) : Option (Bool × Visitercontrol) :=
  match lookupKey key st.indexes with
  | some index =>
    if index < st.visitorRecords.length then
      match (st.visitorRecords.getD index (newCircleQueueInt64 st.maxVisitsNum)).Push
          (now + st.defaultExpiration) with
      | some q2 => some (true, { st with visitorRecords := st.visitorRecords.set index q2 })
      | none => some (false, st)
    else none
  | none =>
    match st.notUsedVisitorRecordsIndex with
    | index :: _ =>
      if index < st.visitorRecords.length then
        let q := st.visitorRecords.getD index (newCircleQueueInt64 st.maxVisitsNum)
        let q2 := (q.Push (now + st.defaultExpiration)).getD q
        some (true,
          { st with
            visitorRecords := st.visitorRecords.set index q2
            notUsedVisitorRecordsIndex := st.notUsedVisitorRecordsIndex.erase index
            indexes := storeKey key index st.indexes })
      else none
    | [] =>
      let q := newCircleQueueInt64 st.maxVisitsNum
      let q2 := (q.Push (now + st.defaultExpiration)).getD q
      some (true,
        { st with
          visitorRecords := st.visitorRecords ++ [q2]
          indexes := storeKey key st.visitorRecords.length st.indexes })

/-- `AllowVisit(key)`: `this.add(key) == nil`. -/
def AllowVisit (st : Visitercontrol) (key : Int) (now : Int) : Option Bool :=
  (add st key now).map Prod.fst

/-- The body of the `indexes.Range` callback in `deleteExpiredOnce`: sweep
one `(key, slot)` pair, reclaiming the slot when its buffer drains to
empty, and dropping the key mapping outright when the slot index is out of
range (the source's defensive fallback). -/
def sweepEntry (now : Int) (st : Visitercontrol) (kv : Int × Nat) : Visitercontrol :=
  let index := kv.2
  if index < st.visitorRecords.length then
    let q2 := circleQueueInt64.DeleteExpired now
      (st.visitorRecords.getD index (newCircleQueueInt64 st.maxVisitsNum))
    let st2 := { st with visitorRecords := st.visitorRecords.set index q2 }
    if q2.Size = 0 then
      { st2 with
        indexes := deleteKey kv.1 st2.indexes
        notUsedVisitorRecordsIndex := setAdd index st2.notUsedVisitorRecordsIndex }
    else st2
  else { st with indexes := deleteKey kv.1 st.indexes }

/-- `deleteExpiredOnce()`: walk every `(key, slot)` pair of the index (in
the model's iteration order), with `time.Now().UnixNano()` passed as
`now`. -/
def deleteExpiredOnce (now : Int) (st : Visitercontrol) : Visitercontrol :=
  st.indexes.foldl (sweepEntry now) st

/-- `needGc()`: compact only when `curLen ≥ 2*maximumNumberOfOnlineUsers`
and `usedLen*2 < unUsedLen` (Go `int` arithmetic, hence `Int`). -/
def needGc (st : Visitercontrol) : Bool :=
  let curLen : Int := st.visitorRecords.length
  let unUsedLen : Int := st.notUsedVisitorRecordsIndex.length
  let usedLen : Int := curLen - unUsedLen
  if curLen < 2 * (st.maximumNumberOfOnlineUsers : Int) then false
  else if usedLen * 2 < unUsedLen then true
  else false

/-- The `indexes.Range` body of `gc`: copy each active key's buffer (by
reference) to position `indexNew` of the new pool and increment `indexNew`.
`none` models the Go panic when `indexOld` or `indexNew` is out of range.
The source does NOT store `key → indexNew` back into `indexes`. -/
def copyLoop : List (Int × Nat) → List circleQueueInt64 → List circleQueueInt64 → Nat →
    Option (List circleQueueInt64 × Nat)
  | [], _, acc, indexNew => some (acc, indexNew)
  | (_, indexOld) :: rest, old, acc, indexNew =>
    if indexOld < old.length ∧ indexNew < acc.length then
      copyLoop rest old (acc.set indexNew (old.getD indexOld (newCircleQueueInt64 0)))
        (indexNew + 1)
    else none

/-- The new pool size computed by `gc`: `maximumNumberOfOnlineUsers` when
`usedLen < maximumNumberOfOnlineUsers`, else `usedLen * 2`, where
`usedLen = curLen - unUsedLen` (`gc` lines 239–247 of the source). -/
def gcNewLen (st : Visitercontrol) : Int :=
  if (st.visitorRecords.length : Int) - (st.notUsedVisitorRecordsIndex.length : Int)
      < (st.maximumNumberOfOnlineUsers : Int) then
    (st.maximumNumberOfOnlineUsers : Int)
  else ((st.visitorRecords.length : Int) - (st.notUsedVisitorRecordsIndex.length : Int)) * 2

/-- `gc()`: when `needGc`, rebuild the pool at size `gcNewLen`, copy the
active buffers to the front, clear the free set and re-mark every index
`≥ indexNew` free.  `indexes` is left untouched, exactly as in the
source. -/
def gc (st : Visitercontrol) : Option Visitercontrol :=
  if needGc st then
    let base := List.replicate (gcNewLen st).toNat (newCircleQueueInt64 st.maxVisitsNum)
    (copyLoop st.indexes st.visitorRecords base 0).map fun pr =>
      { st with
        visitorRecords := pr.1
        notUsedVisitorRecordsIndex := (List.range pr.1.length).filter fun i => decide (pr.2 ≤ i) }
  else some st

/-! ### Concrete executions used as failing inputs and witnesses -/

/-- Run `add` and keep the post-state (every `add` in the traces below
returns `some`). -/
def addB (key now : Int) (st : Visitercontrol) : Visitercontrol :=
  ((add st key now).map Prod.snd).getD st

/-- Construction helper for traces (parameters below always satisfy
`cleanupInterval ≤ defaultExpiration`, so `new` succeeds). -/
def mkVC (e i : Int) (v m : Nat) : Visitercontrol :=
  (new e i v m).getD
    { defaultExpiration := e, cleanupInterval := i, maxVisitsNum := v
      maximumNumberOfOnlineUsers := m, indexes := [], visitorRecords := []
      notUsedVisitorRecordsIndex := [] }

/-- Run `gc` and keep the post-state. -/
def gcD (st : Visitercontrol) : Visitercontrol :=
  (gc st).getD st

/-- Quiescent state before the buggy compaction (window 100, sweep 10,
limit 2, expected concurrency 2): keys 1, 3, 4 visit once at `t = 0`;
key 2 visits at `t = 0` and `t = 40`; the sweep at `t = 130` drains keys
1, 3, 4 (events expired at 100) and leaves key 2 in slot 1 with one live
event (expires 140).  `needGc` then holds: 4 slots ≥ 2·2 and 1 active·2 <
3 free. -/
def gcStPre : Visitercontrol :=
  deleteExpiredOnce 130 (addB 2 40 (addB 4 0 (addB 3 0 (addB 2 0 (addB 1 0 (mkVC 100 10 2 2))))))

/-- The state right after `gc` runs on `gcStPre`. -/
def gcStPost : Visitercontrol :=
  gcD gcStPre

/-- The state after key 2 visits again (at `t = 135`) following the buggy
compaction: its stale mapping still says slot 1, which compaction marked
free. -/
def c9St : Visitercontrol :=
  addB 2 135 gcStPost

/-- Quiescent state before compaction for the pool-size formula (window
100, sweep 10, limit 1, expected concurrency 3): keys 1–5 visit once at
`t = 0`, keys 6 and 7 at `t = 40`; the sweep at `t = 130` drains keys 1–5
and leaves keys 6 and 7 active, so 2 of the 7 slots are active and
`needGc` holds (7 ≥ 2·3 and 2·2 < 5). -/
def c6Pre : Visitercontrol :=
  deleteExpiredOnce 130
    (addB 7 40 (addB 6 40 (addB 5 0 (addB 4 0 (addB 3 0 (addB 2 0 (addB 1 0 (mkVC 100 10 1 3))))))))

/-! ### Claim theorems about the controller -/

/-- Claim C8: construction fails (the source panics) exactly when the sweep
interval exceeds the window duration; `cleanupInterval ≤ defaultExpiration`
— equality included — succeeds. -/
theorem C8_new_succeeds_iff (defaultExpiration cleanupInterval : Int)
    (maxVisitsNum maximumNumberOfOnlineUsers : Nat) :
    (new defaultExpiration cleanupInterval maxVisitsNum maximumNumberOfOnlineUsers).isSome
      ↔ cleanupInterval ≤ defaultExpiration := by
  unfold new
  split
  · rename_i hlt
    simp only [Option.isSome_none]
    constructor
    · intro hf; exact absurd hf (by simp)
    · intro hle; omega
  · rename_i hge
    simp only [Option.isSome_some]
    constructor
    · intro _; omega
    · intro _; trivial

/-- Claim C7: a denied `AllowVisit`/`add` call (result `false`, the buffer
was full) leaves the whole controller state — in particular the key's
buffer contents and `UsedSize` — unchanged. -/
theorem C7_denied_add_no_side_effect (st st2 : Visitercontrol) (key now : Int)
    (h : add st key now = some (false, st2)) : st2 = st := by
  unfold add at h
  split at h
  · split at h
    · split at h
      · injection h with h5
        exact Bool.noConfusion (congrArg Prod.fst h5)
      · injection h with h5
        exact (congrArg Prod.snd h5).symm
    · exact Option.noConfusion h
  · split at h
    · split at h
      · injection h with h5
        exact Bool.noConfusion (congrArg Prod.fst h5)
      · exact Option.noConfusion h
    · injection h with h5
      exact Bool.noConfusion (congrArg Prod.fst h5)

/-- Witness for C7: a controller with limit 1 whose key 1 already holds one
event denies the next call and the state is unchanged. -/
theorem C7_witness :
    add (addB 1 0 (mkVC 100 10 1 1)) 1 5 = some (false, addB 1 0 (mkVC 100 10 1 1)) ∧
      addB 1 0 (mkVC 100 10 1 1) = addB 1 0 (mkVC 100 10 1 1) :=
  ⟨by decide,
    C7_denied_add_no_side_effect (addB 1 0 (mkVC 100 10 1 1)) (addB 1 0 (mkVC 100 10 1 1)) 1 5
      (by decide)⟩

/-- Claim C3 counterexample: with `maxVisitsNum = 0` a brand-new key's
`Push` onto its resolved (free) slot fails — a capacity-0 buffer is always
full — yet `AllowVisit` returns `true`, because the allocation path of
`add` ignores the `Push` error and returns `nil`.  The claim "returns false
whenever the push fails" is therefore false. -/
theorem C3_counterexample :
    AllowVisit (mkVC 100 10 0 1) 5 0 = some true ∧
      ((mkVC 100 10 0 1).visitorRecords.getD 0
          (newCircleQueueInt64 (mkVC 100 10 0 1).maxVisitsNum)).Push
        (0 + (mkVC 100 10 0 1).defaultExpiration) = none := by
  refine ⟨?_, ?_⟩ <;> decide

/-- Claim C3 (amended): for a key already present in the index (with its
slot in range) `AllowVisit` returns `true` exactly when the `Push` of
`now + window` onto that slot's buffer succeeds; for a key not in the
index, every non-panicking call returns `true` unconditionally — the
`Push` error on the allocation path is ignored, which coincides with push
success only when the resolved buffer actually has room. -/
theorem C3_allowVisit_iff_push (st : Visitercontrol) (key now : Int) :
    (∀ index : Nat, lookupKey key st.indexes = some index →
      index < st.visitorRecords.length →
      AllowVisit st key now
        = some (((st.visitorRecords.getD index (newCircleQueueInt64 st.maxVisitsNum)).Push
            (now + st.defaultExpiration)).isSome)) ∧
    (lookupKey key st.indexes = none →
      ∀ (b : Bool) (st2 : Visitercontrol), add st key now = some (b, st2) → b = true) := by
  constructor
  · intro index hidx hlen
    unfold AllowVisit add
    split
    · rename_i index2 heq
      rw [hidx] at heq
      injection heq with h6
      subst h6
      rw [if_pos hlen]
      rcases hp : (st.visitorRecords.getD index (newCircleQueueInt64 st.maxVisitsNum)).Push
          (now + st.defaultExpiration) with _ | q2 <;> rfl
    · rename_i heq
      rw [hidx] at heq
      exact Option.noConfusion heq
  · intro hnone b st2 h
    unfold add at h
    split at h
    · rename_i index heq
      rw [hnone] at heq
      exact Option.noConfusion heq
    · split at h
      · split at h
        · injection h with h5
          exact (congrArg Prod.fst h5).symm
        · exact Option.noConfusion h
      · injection h with h5
        exact (congrArg Prod.fst h5).symm

/-- Witness for C3 (amended) at a controller whose key 1 occupies slot 0
with one of two capacity slots used. -/
theorem C3_witness :
    AllowVisit (addB 1 0 (mkVC 100 10 2 1)) 1 5
      = some ((((addB 1 0 (mkVC 100 10 2 1)).visitorRecords.getD 0
          (newCircleQueueInt64 (addB 1 0 (mkVC 100 10 2 1)).maxVisitsNum)).Push
            (5 + (addB 1 0 (mkVC 100 10 2 1)).defaultExpiration)).isSome) :=
  (C3_allowVisit_iff_push (addB 1 0 (mkVC 100 10 2 1)) 1 5).1 0 (by decide) (by decide)

theorem copyLoop_length :
    ∀ (entries : List (Int × Nat)) (old acc : List circleQueueInt64) (k : Nat)
      (res : List circleQueueInt64 × Nat),
      copyLoop entries old acc k = some res → res.1.length = acc.length := by
  intro entries
  induction entries with
  | nil =>
    intro old acc k res h
    injection h with h5
    rw [← h5]
  | cons e rest ih =>
    intro old acc k res h
    simp only [copyLoop] at h
    split at h
    · have h5 := ih old _ _ _ h
      rw [h5, List.length_set]
    · exact Option.noConfusion h

/-- Claim C6 counterexample: a reachable quiescent state with 2 active keys
and `maximumNumberOfOnlineUsers = 3` where `needGc` holds; `gc` rebuilds
the pool at length 3 (`usedLen < targetMinimum` branch), not
`max(targetMinimum, 2 × activeCount) = max 3 4 = 4` as the claim states. -/
theorem C6_counterexample :
    needGc c6Pre = true ∧
      (c6Pre.visitorRecords.length : Int) - (c6Pre.notUsedVisitorRecordsIndex.length : Int) = 2 ∧
      c6Pre.maximumNumberOfOnlineUsers = 3 ∧
      (gc c6Pre).map (fun s => s.visitorRecords.length) = some 3 ∧
      max 3 (2 * 2) = 4 := by
  refine ⟨?_, ?_, ?_, ?_, ?_⟩ <;> decide

/-- Claim C6 (amended): when `gc` rebuilds, the new pool length is
`maximumNumberOfOnlineUsers` if `activeCount < maximumNumberOfOnlineUsers`
and `2 × activeCount` otherwise (`gcNewLen`); this agrees with
`max(targetMinimum, 2 × activeCount)` except when
`targetMinimum/2 ≤ activeCount < targetMinimum`. -/
theorem C6_gc_new_length (st st2 : Visitercontrol) (h : gc st = some st2)
    (hn : needGc st = true) :
    (st2.visitorRecords.length : Int) = gcNewLen st := by
  unfold gc at h
  rw [if_pos hn] at h
  obtain ⟨pr, hcl, hst2⟩ := Option.map_eq_some'.mp h
  have hlen := copyLoop_length _ _ _ _ _ hcl
  have hrec : st2.visitorRecords = pr.1 := by rw [← hst2]
  have h0 : 0 ≤ gcNewLen st := by
    unfold gcNewLen
    split <;> omega
  rw [hrec, hlen]
  simp only [List.length_replicate]
  omega

/-- Witness for C6 (amended) at the concrete pre-compaction state
`c6Pre`. -/
theorem C6_witness : ((gcD c6Pre).visitorRecords.length : Int) = gcNewLen c6Pre :=
  C6_gc_new_length c6Pre (gcD c6Pre) (by decide) (by decide)

/-- Claim C1 evidence at the failing input `gcStPre`: compaction copies the
single active buffer (key 2, holding the event expiring at 140) by
reference from old slot 1 to new slot 0 and marks the trailing index 1
free, but never reassigns `key → newIndex`: after `gc`, key 2 still maps
to slot 1 — a freshly constructed empty buffer — instead of its buffer's
new position 0.  The source's `Range` callback (lines 257–262) omits the
`indexes.Store(k, indexNew)` its own "重建索引" (rebuild the index) comment
promises. -/
theorem C1_gc_missing_reassignment :
    needGc gcStPre = true ∧
      lookupKey 2 gcStPre.indexes = some 1 ∧
      (gcStPre.visitorRecords.getD 1 (newCircleQueueInt64 0)).toList = [140] ∧
      gc gcStPre = some gcStPost ∧
      (gcStPost.visitorRecords.getD 0 (newCircleQueueInt64 0)).toList = [140] ∧
      (gcStPost.visitorRecords.getD 1 (newCircleQueueInt64 0)).toList = [] ∧
      gcStPost.notUsedVisitorRecordsIndex = [1] ∧
      lookupKey 2 gcStPost.indexes = some 1 ∧ lookupKey 2 gcStPost.indexes ≠ some 0 := by
  refine ⟨?_, ?_, ?_, ?_, ?_, ?_, ?_, ?_, ?_⟩ <;> decide

/-- Claim C2 evidence at the failing input: immediately after the buggy
compaction the partition invariant is broken — slot 1 is simultaneously
the value of `keyToSlot` for key 2 and a member of `freeSlots` (the sets
are not disjoint), and slot 0 is in neither set (the sets do not cover
`[0, len(slots))`). -/
theorem C2_partition_violated :
    gcStPost.visitorRecords.length = 2 ∧
      gcStPost.indexes = [(2, 1)] ∧
      gcStPost.notUsedVisitorRecordsIndex = [1] ∧
      (1 ∈ gcStPost.notUsedVisitorRecordsIndex ∧ lookupKey 2 gcStPost.indexes = some 1) ∧
      (0 ∉ gcStPost.notUsedVisitorRecordsIndex ∧ lookupKey 2 gcStPost.indexes ≠ some 0) := by
  refine ⟨?_, ?_, ?_, ⟨?_, ?_⟩, ⟨?_, ?_⟩⟩ <;> decide

/-- Claim C9 evidence at the failing input: after the buggy compaction,
key 2's stale mapping (slot 1) points at a slot that compaction marked
free; its next visit at `t = 135` pushes an event into that free slot's
buffer, so the free set then contains an index whose buffer has
`UsedSize = 1 ≠ 0`. -/
theorem C9_free_slot_not_empty :
    gcStPost.notUsedVisitorRecordsIndex = [1] ∧
      (gcStPost.visitorRecords.getD 1 (newCircleQueueInt64 0)).UsedSize = 0 ∧
      AllowVisit gcStPost 2 135 = some true ∧
      c9St.notUsedVisitorRecordsIndex = [1] ∧
      (c9St.visitorRecords.getD 1 (newCircleQueueInt64 0)).UsedSize = 1 := by
  refine ⟨?_, ?_, ?_, ?_, ?_⟩ <;> decide
